import Mathlib

/-!
Shallow embedding of the document-tree utilities of the Figma MCP server
(src/mcp-server/utils.py, plus the not-found branch of find_frame_by_name in
src/mcp-server/server.py).

Modelling conventions:
* Python dict-shaped document nodes become the `Node` inductive below; every
  field the code reads is an `Option`, and `children` is a plain list because
  every read of it in the source defaults a missing key to the empty list.
* Python strings become Lean strings; `str.strip` / `str.lower` /
  `str.startswith` are embedded as `pyStrip` / `pyLower` / `pyStartswith`
  (ASCII semantics, which covers every string these claims mention).
* Numeric channel values become exact rationals; Python 3's `round` (ties to
  even) and `"%.3f"` formatting are embedded over exact rationals as
  `pyRound` and `format3`.
* Fallible code (`raise ValueError`) becomes `Except String`.
-/

namespace FigmaMCP

/-- Python `str.strip()` on the underlying character list: drop whitespace
from both ends. -/
def stripChars (cs : List Char) : List Char :=
  ((cs.dropWhile Char.isWhitespace).reverse.dropWhile Char.isWhitespace).reverse

/-- Python `s.strip()`. -/
def pyStrip (s : String) : String := String.mk (stripChars s.data)

/-- Python `s.lower()` (ASCII case folding). -/
def pyLower (s : String) : String := String.mk (s.data.map Char.toLower)

/-- Python `s.startswith(p)`. -/
def pyStartswith (s p : String) : Bool := p.data.isPrefixOf s.data

/-- The `absoluteBoundingBox` record; only `width` and `height` are ever
read, each defensively (`box.get`). -/
structure BBox where
  width : Option ℚ
  height : Option ℚ
deriving DecidableEq

/-- A Figma document node (an untyped dict in the source). Fields the code
reads with `node.get(...)` are `Option`s; `children` is a list because every
access in the source is `node.get("children", [])`. The field `ty` models
the dict key `"type"` (a Lean keyword). -/
inductive Node : Type where
  | mk (id name ty : Option String) (box : Option BBox)
      (characters : Option String) (children : List Node) : Node

/-- The `"id"` entry of a node. -/
def Node.id : Node → Option String
  | .mk i _ _ _ _ _ => i

/-- The `"name"` entry of a node. -/
def Node.name : Node → Option String
  | .mk _ n _ _ _ _ => n

/-- The `"type"` entry of a node. -/
def Node.ty : Node → Option String
  | .mk _ _ t _ _ _ => t

/-- The `"absoluteBoundingBox"` entry of a node. -/
def Node.box : Node → Option BBox
  | .mk _ _ _ b _ _ => b

/-- The `"characters"` entry of a node. -/
def Node.characters : Node → Option String
  | .mk _ _ _ _ c _ => c

/-- The `"children"` entry of a node (missing key ≡ empty list). -/
def Node.children : Node → List Node
  | .mk _ _ _ _ _ k => k

/-- The name test inside the loop of `find_node_by_name`:
`current_name = current.get("name", "")` must be truthy (non-empty) and its
stripped, lowered form must equal the pre-normalized query. -/
def nameMatches (current : Node) (normalized : String) : Bool :=
  let current_name := current.name.getD ""
  current_name ≠ "" && pyLower (pyStrip current_name) == normalized

/-- The explicit-stack loop of `find_node_by_name`: pop a node, return it on
a name match, otherwise push its children in reverse so they are visited
left to right (here: prepend them in order). The source's
`if not current: continue` guard only skips Python-falsy entries, which are
not representable as `Node`s and would neither match nor contribute
children, so it has no counterpart here. -/
def findGo (normalized : String) : List Node → Option Node
  | [] => none
  | current :: rest =>
    if nameMatches current normalized then some current
    else findGo normalized (current.children ++ rest)
termination_by stack => sizeOf stack
decreasing_by
  have h1 : ∀ l₁ l₂ : List Node, sizeOf (l₁ ++ l₂) + 1 = sizeOf l₁ + sizeOf l₂ := by
    intro l₁ l₂
    induction l₁ with
    | nil => simp; omega
    | cons x xs ih => simp; omega
  have h2 : sizeOf current.children < sizeOf current := by
    cases current with
    | mk i nm t b c k => simp [Node.children]
  have h3 := h1 current.children rest
  simp
  omega

/-- `find_node_by_name` from utils.py: normalize the query once, then run
the stack loop seeded with the root. -/
def find_node_by_name (root : Node) (name : String) : Option Node :=
  findGo (pyLower (pyStrip name)) [root]

mutual
/-- Document order (spec side): a node followed by the preorder of its
children, children left to right. -/
def preorder : Node → List Node
  | .mk i n t b c kids => .mk i n t b c kids :: preorderList kids

/-- Preorder of a forest, in order. -/
def preorderList : List Node → List Node
  | [] => []
  | k :: ks => preorder k ++ preorderList ks
end

/-- One entry of the list built by `list_top_level_frames`: a dict with the
keys `id`, `name`, `type` (here `ty`) and `page`. -/
structure FrameInfo where
  id : String
  name : String
  ty : String
  page : String
deriving DecidableEq

/-- `list_top_level_frames` from utils.py: walk the root's direct children
(pages) and each page's direct children, keeping the nodes whose `type` is
FRAME, COMPONENT or COMPONENT_SET, tagged with the owning page's name. -/
def list_top_level_frames (root : Node) : List FrameInfo :=
  root.children.flatMap fun page =>
    page.children.filterMap fun node =>
      let node_type := node.ty.getD ""
      if node_type = "FRAME" ∨ node_type = "COMPONENT" ∨ node_type = "COMPONENT_SET" then
        some ⟨node.id.getD "", node.name.getD "Unnamed", node_type, page.name.getD "Unnamed Page"⟩
      else none

/-- Outcome of the `find_frame_by_name` tool in server.py: either the found
node (serialized with its summary and styles in the source) or the
not-found error payload, whose `availableFrames` entry lists the names of
the first 20 top-level frames. -/
inductive FindFrameResult : Type where
  | found (node : Node) : FindFrameResult
  | notFound (availableFrames : List String) : FindFrameResult

/-- The decision logic of the `find_frame_by_name` tool in server.py
(lines 185-193): look the name up in the document; on failure build the
bounded list of alternative names from `list_top_level_frames(document)[:20]`. -/
def find_frame_by_name (document : Node) (name : String) : FindFrameResult :=
  match find_node_by_name document name with
  | some node => .found node
  | none => .notFound (((list_top_level_frames document).take 20).map FrameInfo.name)

/-- A node summary (a dict in the source); keys the code may leave out are
`Option`s. `size` holds the `width`/`height` pair read off the bounding
box, `childCount`/`children`/`childrenTruncated` are only set when child
inclusion is requested. -/
inductive Summary : Type where
  | mk (id name ty : Option String) (size : Option (Option ℚ × Option ℚ))
      (characters : Option String) (childCount : Option Nat)
      (children : Option (List Summary)) (childrenTruncated : Option Bool) : Summary

/-- The `"id"` entry of a summary. -/
def Summary.id : Summary → Option String
  | .mk i _ _ _ _ _ _ _ => i

/-- The `"name"` entry of a summary. -/
def Summary.name : Summary → Option String
  | .mk _ n _ _ _ _ _ _ => n

/-- The `"type"` entry of a summary. -/
def Summary.ty : Summary → Option String
  | .mk _ _ t _ _ _ _ _ => t

/-- The `"size"` entry of a summary. -/
def Summary.size : Summary → Option (Option ℚ × Option ℚ)
  | .mk _ _ _ s _ _ _ _ => s

/-- The `"characters"` entry of a summary. -/
def Summary.characters : Summary → Option String
  | .mk _ _ _ _ c _ _ _ => c

/-- The `"childCount"` entry of a summary. -/
def Summary.childCount : Summary → Option Nat
  | .mk _ _ _ _ _ cc _ _ => cc

/-- The `"children"` entry of a summary. -/
def Summary.children : Summary → Option (List Summary)
  | .mk _ _ _ _ _ _ ch _ => ch

/-- The `"childrenTruncated"` entry of a summary. -/
def Summary.childrenTruncated : Summary → Option Bool
  | .mk _ _ _ _ _ _ _ tr => tr

/-- `summarize_node` with `include_children=False`: always id, name, type;
`size` (width/height) only when a bounding box is present; for TEXT nodes
the first 100 characters of content (`node.get("characters", "")[:100]`). -/
def summarizeBase (node : Node) : Summary :=
  .mk node.id node.name node.ty
    (node.box.map fun b => (b.width, b.height))
    (if node.ty = some "TEXT" then some ((node.characters.getD "").take 100) else none)
    none none none

/-- `summarize_node` from utils.py. When `include_children` is set it adds
the true child count, the summaries of the first 10 children, and — only
when more than 10 children exist — the `childrenTruncated = True` flag.
The source's recursive call passes `include_children=False`, which is
exactly `summarizeBase`, so the child summaries carry no children of their
own. -/
def summarize_node (node : Node) (include_children : Bool) : Summary :=
  if include_children then
    match summarizeBase node with
    | .mk i n t sz ch _ _ _ =>
      .mk i n t sz ch (some node.children.length)
        (some ((node.children.take 10).map summarizeBase))
        (if 10 < node.children.length then some true else none)
  else summarizeBase node

/-- Python `dict.get(k, default)` on a string-keyed rational dict, modelled
as lookup in an association list. -/
def dictGet (d : List (String × ℚ)) (k : String) (dflt : ℚ) : ℚ :=
  match d.find? (fun p => p.1 == k) with
  | some p => p.2
  | none => dflt

/-- Python 3's builtin `round` on an exact rational: nearest integer, ties
to the even neighbour. -/
def pyRound (q : ℚ) : ℤ :=
  if Int.fract q < 1/2 then ⌊q⌋
  else if 1/2 < Int.fract q then ⌊q⌋ + 1
  else if ⌊q⌋ % 2 = 0 then ⌊q⌋ else ⌊q⌋ + 1

/-- Three-digit, zero-padded decimal rendering of a value below 1000. -/
def pad3 (n : Nat) : String :=
  if n < 10 then "00" ++ toString n
  else if n < 100 then "0" ++ toString n
  else toString n

/-- Python `f"{q:.3f}"` on an exact rational: round to three decimal places
(ties to even) and render with exactly three digits after the point. -/
def format3 (q : ℚ) : String :=
  let sign := if q < 0 then "-" else ""
  let m := (pyRound (|q| * 1000)).toNat
  sign ++ toString (m / 1000) ++ "." ++ pad3 (m % 1000)

/-- `figma_color_to_css` from utils.py over exact rationals. The color is a
Python-optional dict (`None` or an association list); a falsy color (`None`
or the empty dict) yields no color. Channels default to 0, alpha to 1;
the effective alpha is the color's own alpha times the opacity multiplier,
and at `a >= 0.999` the 3-channel form is produced. -/
def figma_color_to_css (color : Option (List (String × ℚ))) (opacity : ℚ) : Option String :=
  match color with
  | none => none
  | some d =>
    if d.isEmpty then none
    else
      let r := pyRound (dictGet d "r" 0 * 255)
      let g := pyRound (dictGet d "g" 0 * 255)
      let b := pyRound (dictGet d "b" 0 * 255)
      let a := dictGet d "a" 1 * opacity
      if 999/1000 ≤ a then
        some ("rgb(" ++ toString r ++ ", " ++ toString g ++ ", " ++ toString b ++ ")")
      else
        some ("rgba(" ++ toString r ++ ", " ++ toString g ++ ", " ++ toString b ++ ", " ++ format3 a ++ ")")

/-- The character class `[a-zA-Z0-9]` of the file-key pattern. -/
def isAlnumChar (c : Char) : Bool := c.isAlpha || c.isDigit

/-- The four literal route alternatives of the pattern
`figma\\.com/(?:file|design|board|proto)/` as character lists. -/
def routePrefixes : List (List Char) :=
  ["figma.com/file/".data, "figma.com/design/".data,
   "figma.com/board/".data, "figma.com/proto/".data]

/-- Matching the whole pattern at the current position: one of the literal
route alternatives must start here, followed by a non-empty maximal run of
`[a-zA-Z0-9]` characters, which is the captured key. -/
def matchRoute : List (List Char) → List Char → Option (List Char)
  | [], _ => none
  | p :: ps, cs =>
    if p.isPrefixOf cs then
      let key := (cs.drop p.length).takeWhile isAlnumChar
      if key = [] then matchRoute ps cs else some key
    else matchRoute ps cs

/-- `re.search` for the file-key pattern: try every start position from the
left and return the first (leftmost) captured key. -/
def searchKey : List Char → Option (List Char)
  | [] => none
  | c :: rest =>
    match matchRoute routePrefixes (c :: rest) with
    | some k => some k
    | none => searchKey rest

/-- `extract_file_key` from utils.py: strip the input; a string that does
not start with `"http"` is returned (stripped) as the key; otherwise the
key is the first capture of the route pattern, and a URL without a match
raises `ValueError` (here: `Except.error`). -/
def extract_file_key (file_url_or_key : String) : Except String String :=
  let trimmed := pyStrip file_url_or_key
  if ¬ pyStartswith trimmed "http" then .ok trimmed
  else
    match searchKey trimmed.data with
    | some key => .ok (String.mk key)
    | none => .error ("Invalid Figma URL. Expected format like " ++
        "https://www.figma.com/design/<FILE_KEY>/... or /file/<FILE_KEY>/...")

/-- The claim's name-match test (spec side): normalized equality only, with
no truthiness requirement on the raw name. -/
def specNameMatches (n : Node) (q : String) : Bool :=
  pyLower (pyStrip (n.name.getD "")) == pyLower (pyStrip q)

/-- Rounding halves away from zero, as the claim words it (spec side). -/
def roundHalfAway (q : ℚ) : ℤ :=
  if q < 0 then -⌊-q + 1/2⌋ else ⌊q + 1/2⌋

/-- A childless node with no fields. -/
def leafNode : Node := .mk none none none none none []

/-- A bare node with `n` leaf children. -/
def nodeWithKids (n : Nat) : Node := .mk none none none none none (List.replicate n leafNode)

/-- Fixture: a frame named `"  Header  "`. -/
def headerChild : Node := .mk (some "1:2") (some "  Header  ") (some "FRAME") none none []

/-- Fixture: a document whose only page child is `headerChild`. -/
def headerTree : Node := .mk (some "0:0") (some "Root") (some "DOCUMENT") none none [headerChild]

/-- Fixture: a node whose name is present but literally empty. -/
def emptyNameNode : Node := .mk (some "0:1") (some "") none none none []

/-- Fixture: a node whose name is a single space — truthy in Python, and it
normalizes to the empty string. -/
def wsNode : Node := .mk (some "0:2") (some " ") none none none []

/-- Fixture: a frame three levels below the document root. -/
def deepFrameB : Node := .mk (some "deep") (some "DeepFrame") (some "FRAME") none none []

/-- Fixture: a top-level frame containing `deepFrameB`. -/
def frameA : Node := .mk (some "A") (some "TopFrame") (some "FRAME") none none [deepFrameB]

/-- Fixture: the page holding `frameA`. -/
def pageOne : Node := .mk (some "p1") (some "Page 1") (some "CANVAS") none none [frameA]

/-- Fixture: document → page → frame → frame. -/
def deepTree : Node := .mk (some "doc") (some "Document") (some "DOCUMENT") none none [pageOne]

/-- Fixture: a frame named `"F"`. -/
def frameF : Node := .mk (some "1:1") (some "F") (some "FRAME") none none []

/-- Fixture: a page with 30 top-level frames. -/
def page30 : Node := .mk (some "p") (some "Page") (some "CANVAS") none none (List.replicate 30 frameF)

/-- Fixture: a document whose single page has 30 top-level frames. -/
def doc30 : Node := .mk (some "d") (some "Doc") (some "DOCUMENT") none none [page30]

/-- Fixture: a TEXT node with 150 characters of content. -/
def node150 : Node :=
  .mk (some "t") (some "T") (some "TEXT") none (some (String.mk (List.replicate 150 'a'))) []

/-!
Helper theorems: shared infrastructure used by several claim theorems and
witnesses below.
-/

/-- Two strings with the same character data are equal. -/
theorem stringExt {s t : String} (h : s.data = t.data) : s = t := congrArg String.mk h

/-- The size of a concatenated node list. -/
theorem sizeOf_append_node (l₁ l₂ : List Node) :
    sizeOf (l₁ ++ l₂) + 1 = sizeOf l₁ + sizeOf l₂ := by
  induction l₁ with
  | nil => simp; omega
  | cons x xs ih => simp; omega

/-- A node is larger than its child list. -/
theorem Node.sizeOf_children_lt (n : Node) : sizeOf n.children < sizeOf n := by
  cases n with
  | mk i nm t b c k => simp [Node.children]

/-- Unfolding `preorder` through the accessor view of a node. -/
theorem preorder_eq_cons (n : Node) : preorder n = n :: preorderList n.children := by
  cases n with
  | mk i nm t b c k => rfl

/-- Preorder of a concatenated forest splits. -/
theorem preorderList_append (l₁ l₂ : List Node) :
    preorderList (l₁ ++ l₂) = preorderList l₁ ++ preorderList l₂ := by
  induction l₁ with
  | nil => simp [preorderList]
  | cons x xs ih => simp [preorderList, ih]

/-- The explicit-stack loop returns exactly the first match, in document
(pre)order, of the whole forest still on the stack. -/
theorem findGo_eq (q : String) : ∀ (stack : List Node),
    findGo q stack = (preorderList stack).find? (fun n => nameMatches n q)
  | [] => by simp [findGo, preorderList]
  | current :: rest => by
    rw [findGo, findGo_eq q (current.children ++ rest), preorderList_append]
    rw [show preorderList (current :: rest) = preorder current ++ preorderList rest from rfl]
    rw [preorder_eq_cons, List.cons_append, List.find?_cons]
    cases nameMatches current q <;> simp
termination_by stack => sizeOf stack
decreasing_by
  have h1 := sizeOf_append_node current.children rest
  have h2 := Node.sizeOf_children_lt current
  simp
  omega

/-- `find_node_by_name` is the first name match in document (pre)order. -/
theorem find_node_by_name_eq (root : Node) (q : String) :
    find_node_by_name root q
      = (preorder root).find? (fun n => nameMatches n (pyLower (pyStrip q))) := by
  rw [find_node_by_name, findGo_eq]
  rw [show preorderList [root] = preorder root ++ preorderList [] from rfl]
  simp [preorderList]

/-- `pyRound` below the tie point is the floor. -/
theorem pyRound_of_fract_lt {q : ℚ} (h : Int.fract q < 1/2) : pyRound q = ⌊q⌋ := by
  rw [pyRound, if_pos h]

/-- `pyRound` above the tie point is the ceiling. -/
theorem pyRound_of_lt_fract {q : ℚ} (h : 1/2 < Int.fract q) : pyRound q = ⌊q⌋ + 1 := by
  rw [pyRound, if_neg (by linarith), if_pos h]

/-- `pyRound` at the tie point with an even floor. -/
theorem pyRound_tie_even {q : ℚ} (h : Int.fract q = 1/2) (he : ⌊q⌋ % 2 = 0) :
    pyRound q = ⌊q⌋ := by
  rw [pyRound, if_neg (by rw [h]; exact lt_irrefl _), if_neg (by rw [h]; exact lt_irrefl _),
    if_pos he]

/-- `pyRound` at the tie point with an odd floor. -/
theorem pyRound_tie_odd {q : ℚ} (h : Int.fract q = 1/2) (he : ¬ ⌊q⌋ % 2 = 0) :
    pyRound q = ⌊q⌋ + 1 := by
  rw [pyRound, if_neg (by rw [h]; exact lt_irrefl _), if_neg (by rw [h]; exact lt_irrefl _),
    if_neg he]

/-- The length of a string prefix. -/
theorem string_length_take (s : String) (n : Nat) : (s.take n).length = min n s.length := by
  show (s.take n).data.length = _
  rw [String.data_take, List.length_take]
  rfl

/-- A string is its 100-character prefix followed by the rest. -/
theorem string_take_append_drop (s : String) (n : Nat) : s.take n ++ s.drop n = s := by
  apply stringExt
  simp

/-!
The claim theorems. Each is stated over the embedded source definitions
above; fixtures named in the claims appear as concrete conjuncts.
-/

/-- The length of the bounded child-summary list, for any node. -/
theorem summarize_children_length (node : Node) :
    Option.map List.length (summarize_node node true).children
      = some (min 10 node.children.length) := by
  show Option.map List.length
      (some ((node.children.take 10).map (fun c => summarize_node c false))) = _
  simp [List.length_take]

set_option maxRecDepth 8000 in
/-- C1: summarizing a node with child inclusion yields the true child count,
the summaries of at most the first 10 children in original order — each
child summarized without its own children — and a truncation flag present
exactly when more than 10 children exist; a node with 1000 children yields
10 child summaries, `childCount` 1000 and the flag, one with 5 children
yields all 5 and no flag. -/
theorem C1_summary_bounded :
    (∀ node : Node,
      (summarize_node node true).childCount = some node.children.length
      ∧ (summarize_node node true).children
          = some ((node.children.take 10).map (fun c => summarize_node c false))
      ∧ Option.map List.length (summarize_node node true).children
          = some (min 10 node.children.length)
      ∧ (∀ c : Node, (summarize_node c false).children = none
          ∧ (summarize_node c false).childCount = none
          ∧ (summarize_node c false).childrenTruncated = none)
      ∧ ((summarize_node node true).childrenTruncated
          = if 10 < node.children.length then some true else none)
      ∧ ((summarize_node node true).childrenTruncated = some true
          ↔ 10 < node.children.length))
    ∧ (summarize_node (nodeWithKids 1000) true).childCount = some 1000
    ∧ Option.map List.length (summarize_node (nodeWithKids 1000) true).children = some 10
    ∧ (summarize_node (nodeWithKids 1000) true).childrenTruncated = some true
    ∧ (summarize_node (nodeWithKids 5) true).childCount = some 5
    ∧ Option.map List.length (summarize_node (nodeWithKids 5) true).children = some 5
    ∧ (summarize_node (nodeWithKids 5) true).childrenTruncated = none := by
  refine ⟨fun node => ⟨rfl, rfl, summarize_children_length node, fun c => ⟨rfl, rfl, rfl⟩,
    rfl, ?_⟩, ?_, ?_, ?_, ?_, ?_, ?_⟩
  · show (if 10 < node.children.length then some true else none) = some true ↔ _
    split_ifs with h <;> simp [h]
  · show some ((List.replicate 1000 leafNode).length) = some 1000
    rw [List.length_replicate]
  · rw [summarize_children_length]
    show some (min 10 (List.replicate 1000 leafNode).length) = some 10
    rw [List.length_replicate]
    norm_num
  · show (if 10 < (List.replicate 1000 leafNode).length then some true else none) = some true
    rw [List.length_replicate]
    norm_num
  · show some ((List.replicate 5 leafNode).length) = some 5
    rw [List.length_replicate]
  · rw [summarize_children_length]
    show some (min 10 (List.replicate 5 leafNode).length) = some 5
    rw [List.length_replicate]
    norm_num
  · show (if 10 < (List.replicate 5 leafNode).length then some true else none) = none
    rw [List.length_replicate]
    norm_num

/-- C2 counterexample: with the query `""` on a tree whose root's name is
literally `""`, a node whose normalized name equals the normalized query
exists (the root itself, per the claim's own match test), yet the code
returns `None` — the claim as stated is false at this input. -/
theorem C2_counterexample :
    specNameMatches emptyNameNode "" = true
    ∧ (preorder emptyNameNode).find? (fun n => specNameMatches n "") = some emptyNameNode
    ∧ find_node_by_name emptyNameNode "" = none := by
  refine ⟨rfl, rfl, ?_⟩
  rw [find_node_by_name_eq]
  rfl

/-- C2 (amended: the matched node's raw name must additionally be
non-empty, since the code skips falsy names): find-by-name returns the
first node in pre-order document order whose name is non-empty and whose
trimmed, case-folded name equals the trimmed, case-folded query, and `None`
when no such node exists; a node named `"  Header  "` is found by
`"header"`. -/
theorem C2_find_first_preorder :
    (∀ (root : Node) (q : String),
      find_node_by_name root q
        = (preorder root).find? (fun n => nameMatches n (pyLower (pyStrip q))))
    ∧ find_node_by_name headerTree "header" = some headerChild := by
  refine ⟨find_node_by_name_eq, ?_⟩
  rw [find_node_by_name_eq]
  rfl

/-- C4 counterexample: the input `" abc "` does not start with a URL
scheme, but the parser returns `"abc"`, not the input verbatim. -/
theorem C4_counterexample :
    extract_file_key " abc " = .ok "abc" ∧ "abc" ≠ " abc " :=
  ⟨rfl, by decide⟩

/-- C4 (amended: the parser strips leading/trailing whitespace first and
returns the stripped string, not the verbatim input): every input whose
stripped form does not start with `"http"` yields the stripped string as
the document identifier. -/
theorem C4_bare_key_stripped (s : String)
    (h : pyStartswith (pyStrip s) "http" = false) :
    extract_file_key s = .ok (pyStrip s) := by
  rw [extract_file_key]
  simp [h]

/-- C4 witness: the amended claim at the bare key `"abc123"`. -/
theorem C4_bare_key_witness :
    pyStartswith (pyStrip "abc123") "http" = false
    ∧ extract_file_key "abc123" = .ok "abc123" :=
  ⟨rfl, C4_bare_key_stripped "abc123" rfl⟩

/-- C6: a frame entry is produced exactly for the nodes sitting two levels
below the root (a page's direct child) with type FRAME, COMPONENT or
COMPONENT_SET, tagged with the owning page's name; in the fixture tree with
a frame three levels down, only the depth-two frame's id `"A"` appears. -/
theorem C6_top_level_two_levels :
    (∀ (root : Node) (f : FrameInfo),
      f ∈ list_top_level_frames root
        ↔ ∃ page, page ∈ root.children ∧ ∃ node, node ∈ page.children ∧
            (node.ty.getD "" = "FRAME" ∨ node.ty.getD "" = "COMPONENT"
              ∨ node.ty.getD "" = "COMPONENT_SET")
            ∧ f = ⟨node.id.getD "", node.name.getD "Unnamed", node.ty.getD "",
                page.name.getD "Unnamed Page"⟩)
    ∧ (list_top_level_frames deepTree).map FrameInfo.id = ["A"] := by
  constructor
  · intro root f
    simp only [list_top_level_frames, List.mem_flatMap, List.mem_filterMap,
      Option.ite_none_right_eq_some, Option.some.injEq]
    constructor
    · rintro ⟨p, hp, n, hn, hc, he⟩
      exact ⟨p, hp, n, hn, hc, he.symm⟩
    · rintro ⟨p, hp, n, hn, hc, he⟩
      exact ⟨p, hp, n, hn, hc, he.symm⟩
  · rfl

/-- C7: the summary of a TEXT node carries exactly the first 100 characters
of its content — all of it when shorter — with nothing appended. -/
theorem C7_text_truncation (node : Node) (b : Bool) (h : node.ty = some "TEXT") :
    (summarize_node node b).characters = some ((node.characters.getD "").take 100)
    ∧ ((node.characters.getD "").take 100).length = min 100 (node.characters.getD "").length
    ∧ (node.characters.getD "").take 100 ++ (node.characters.getD "").drop 100
        = node.characters.getD "" := by
  refine ⟨?_, string_length_take _ _, string_take_append_drop _ _⟩
  cases b <;> simp [summarize_node, summarizeBase, Summary.characters, h]

/-- C7 witness: a TEXT node with 150 characters yields exactly its first
100 characters. -/
theorem C7_text_truncation_witness :
    node150.ty = some "TEXT"
    ∧ (summarize_node node150 false).characters = some (String.mk (List.replicate 100 'a')) := by
  refine ⟨rfl, ?_⟩
  have h := (C7_text_truncation node150 false rfl).1
  rw [h]
  have h2 : (String.mk (List.replicate 150 'a')).take 100 = String.mk (List.replicate 100 'a') := by
    apply stringExt
    rw [String.data_take]
    show (List.replicate 150 'a').take 100 = List.replicate 100 'a'
    rw [List.take_replicate]
    norm_num
  exact congrArg some h2

/-- C8: when the name lookup fails, the tool returns the not-found payload
whose alternatives are the names of the first 20 top-level frames — never
more than 20. -/
theorem C8_not_found_alternatives (document : Node) (name : String)
    (h : find_node_by_name document name = none) :
    find_frame_by_name document name
      = .notFound (((list_top_level_frames document).take 20).map FrameInfo.name)
    ∧ (∀ alts, find_frame_by_name document name = .notFound alts → alts.length ≤ 20) := by
  have he : find_frame_by_name document name
      = .notFound (((list_top_level_frames document).take 20).map FrameInfo.name) := by
    rw [find_frame_by_name, h]
  refine ⟨he, fun alts halts => ?_⟩
  rw [he] at halts
  cases halts
  rw [List.length_map]
  exact List.length_take_le 20 _

/-- C8 witness: a failed lookup on a document with 30 top-level frames
returns exactly 20 alternative names. -/
theorem C8_not_found_witness :
    find_node_by_name doc30 "zzz" = none
    ∧ find_frame_by_name doc30 "zzz"
        = .notFound (((list_top_level_frames doc30).take 20).map FrameInfo.name)
    ∧ (((list_top_level_frames doc30).take 20).map FrameInfo.name).length = 20 := by
  have h : find_node_by_name doc30 "zzz" = none := by
    rw [find_node_by_name_eq]
    rfl
  exact ⟨h, (C8_not_found_alternatives doc30 "zzz" h).1, rfl⟩

/-- C9 counterexample: the query `"  "` normalizes to the empty string and
the single node's name `" "` also normalizes to the empty string, yet the
code returns that node, not the not-found value — a Python-truthy
whitespace name is a candidate and matches. -/
theorem C9_counterexample :
    pyLower (pyStrip (wsNode.name.getD "")) = ""
    ∧ pyLower (pyStrip "  ") = ""
    ∧ find_node_by_name wsNode "  " = some wsNode := by
  refine ⟨rfl, rfl, ?_⟩
  rw [find_node_by_name_eq]
  rfl

/-- C9 (amended: only nodes whose raw name is literally empty or missing
are never candidates; a node with a non-empty, all-whitespace name does
match a query that normalizes to the empty string): any node returned by
find-by-name has a non-empty raw name, and the whitespace-named fixture is
found by a whitespace query. -/
theorem C9_empty_names_never_match :
    (∀ (root : Node) (q : String) (n : Node),
        find_node_by_name root q = some n → n.name.getD "" ≠ "")
    ∧ find_node_by_name wsNode "   " = some wsNode := by
  constructor
  · intro root q n h
    rw [find_node_by_name_eq] at h
    have hm := List.find?_some h
    simp only [nameMatches, Bool.and_eq_true, decide_eq_true_eq, ne_eq] at hm
    exact hm.1
  · rw [find_node_by_name_eq]
    rfl

/-- C9 witness: the amended claim applied to the whitespace fixture. -/
theorem C9_empty_names_witness :
    find_node_by_name wsNode "   " = some wsNode
    ∧ wsNode.name.getD "" ≠ "" := by
  have h : find_node_by_name wsNode "   " = some wsNode := by
    rw [find_node_by_name_eq]
    rfl
  exact ⟨h, C9_empty_names_never_match.1 wsNode "   " wsNode h⟩

/-- Looking a key up right where it was just inserted. -/
theorem dictGet_cons_self (k : String) (v : ℚ) (d : List (String × ℚ)) (dflt : ℚ) :
    dictGet ((k, v) :: d) k dflt = v := by
  simp [dictGet, List.find?_cons]

/-- Insertion under a different key does not disturb a lookup. -/
theorem dictGet_cons_ne (k' k : String) (v : ℚ) (d : List (String × ℚ)) (dflt : ℚ)
    (h : (k' == k) = false) :
    dictGet ((k', v) :: d) k dflt = dictGet d k dflt := by
  simp [dictGet, List.find?_cons, h]

/-- A lookup of an absent key yields the default. -/
theorem dictGet_absent (d : List (String × ℚ)) (k : String) (dflt : ℚ)
    (h : d.find? (fun p => p.1 == k) = none) :
    dictGet d k dflt = dflt := by
  simp [dictGet, h]

/-- The branch structure of `figma_color_to_css` on a non-empty color dict,
written out through `dictGet`. -/
theorem figma_color_to_css_eq (d : List (String × ℚ)) (opacity : ℚ) (hd : d ≠ []) :
    figma_color_to_css (some d) opacity =
      if 999/1000 ≤ dictGet d "a" 1 * opacity then
        some ("rgb(" ++ toString (pyRound (dictGet d "r" 0 * 255)) ++ ", "
          ++ toString (pyRound (dictGet d "g" 0 * 255)) ++ ", "
          ++ toString (pyRound (dictGet d "b" 0 * 255)) ++ ")")
      else
        some ("rgba(" ++ toString (pyRound (dictGet d "r" 0 * 255)) ++ ", "
          ++ toString (pyRound (dictGet d "g" 0 * 255)) ++ ", "
          ++ toString (pyRound (dictGet d "b" 0 * 255)) ++ ", "
          ++ format3 (dictGet d "a" 1 * opacity) ++ ")") := by
  obtain ⟨x, xs, rfl⟩ : ∃ x xs, d = x :: xs := by
    cases d with
    | nil => exact absurd rfl hd
    | cons x xs => exact ⟨x, xs, rfl⟩
  rfl

/-- `pyRound` lands on a nearest integer. -/
theorem pyRound_nearest (q : ℚ) : |(pyRound q : ℚ) - q| ≤ 1/2 := by
  have hf0 : 0 ≤ Int.fract q := Int.fract_nonneg q
  have hf1 : Int.fract q < 1 := Int.fract_lt_one q
  have hfr : Int.fract q = q - ⌊q⌋ := rfl
  rcases lt_trichotomy (Int.fract q) (1/2) with h | h | h
  · rw [pyRound_of_fract_lt h]
    have he : (⌊q⌋:ℚ) - q = -(Int.fract q) := by rw [hfr]; ring
    rw [he, abs_neg, abs_of_nonneg hf0]
    linarith
  · by_cases he : ⌊q⌋ % 2 = 0
    · rw [pyRound_tie_even h he]
      have he2 : (⌊q⌋:ℚ) - q = -(Int.fract q) := by rw [hfr]; ring
      rw [he2, abs_neg, abs_of_nonneg hf0, h]
    · rw [pyRound_tie_odd h he]
      push_cast
      have he2 : ((⌊q⌋:ℚ) + 1) - q = 1 - Int.fract q := by rw [hfr]; ring
      rw [he2, abs_of_nonneg (by linarith), h]
      norm_num
  · rw [pyRound_of_lt_fract h]
    push_cast
    have he2 : ((⌊q⌋:ℚ) + 1) - q = 1 - Int.fract q := by rw [hfr]; ring
    rw [he2, abs_of_nonneg (by linarith)]
    linarith

/-- When `pyRound` sits exactly half a unit away — a tie — the chosen
integer is even. -/
theorem pyRound_tie_to_even (q : ℚ) (h : |(pyRound q : ℚ) - q| = 1/2) :
    pyRound q % 2 = 0 := by
  have hf0 : 0 ≤ Int.fract q := Int.fract_nonneg q
  have hf1 : Int.fract q < 1 := Int.fract_lt_one q
  have hfr : Int.fract q = q - ⌊q⌋ := rfl
  rcases lt_trichotomy (Int.fract q) (1/2) with hlt | heq | hgt
  · exfalso
    rw [pyRound_of_fract_lt hlt] at h
    have he : (⌊q⌋:ℚ) - q = -(Int.fract q) := by rw [hfr]; ring
    rw [he, abs_neg, abs_of_nonneg hf0] at h
    linarith
  · by_cases he : ⌊q⌋ % 2 = 0
    · rw [pyRound_tie_even heq he]
      exact he
    · rw [pyRound_tie_odd heq he]
      omega
  · exfalso
    rw [pyRound_of_lt_fract hgt] at h
    push_cast at h
    have he : ((⌊q⌋:ℚ) + 1) - q = 1 - Int.fract q := by rw [hfr]; ring
    rw [he, abs_of_nonneg (by linarith)] at h
    linarith

/-- `pyRound` keeps the scaled channel inside 0..255. -/
theorem pyRound_range {q : ℚ} (h0 : 0 ≤ q) (h255 : q ≤ 255) :
    0 ≤ pyRound q ∧ pyRound q ≤ 255 := by
  have hfl0 : 0 ≤ ⌊q⌋ := Int.floor_nonneg.mpr h0
  have hfl255 : ⌊q⌋ ≤ 255 := by
    have h := Int.floor_mono h255
    norm_num at h
    exact h
  have hfr : Int.fract q = q - ⌊q⌋ := rfl
  have h254 : Int.fract q ≠ 0 → ⌊q⌋ ≤ 254 := by
    intro hne
    by_contra hc
    push_neg at hc
    have h255' : ⌊q⌋ = 255 := le_antisymm hfl255 (by omega)
    have hle : Int.fract q ≤ 0 := by
      rw [hfr, h255']
      push_cast
      linarith
    exact hne (le_antisymm hle (Int.fract_nonneg q))
  rw [pyRound]
  split_ifs with h1 h2 h3
  · exact ⟨hfl0, hfl255⟩
  · have hb : ⌊q⌋ ≤ 254 := h254 (by
      intro h0'
      rw [h0'] at h2
      norm_num at h2)
    exact ⟨by omega, by omega⟩
  · exact ⟨hfl0, hfl255⟩
  · have hfe : Int.fract q = 1/2 := le_antisymm (not_lt.mp h2) (not_lt.mp h1)
    have hb : ⌊q⌋ ≤ 254 := h254 (by rw [hfe]; norm_num)
    exact ⟨by omega, by omega⟩

/-- `pyRound` at half-red: 0.5·255 = 127.5 rounds to the even 128. -/
theorem pyRound_half_red : pyRound ((1:ℚ)/2 * 255) = 128 := by
  have h : Int.fract ((1:ℚ)/2 * 255) = 1/2 := by
    rw [Int.fract]
    norm_num
  rw [pyRound_tie_odd h (by norm_num)]
  norm_num

/-- `pyRound` of a zero channel. -/
theorem pyRound_zero_channel : pyRound ((0:ℚ) * 255) = 0 := by
  have h0 : (0:ℚ) * 255 = 0 := by norm_num
  rw [h0, pyRound_of_fract_lt (by rw [Int.fract_zero]; norm_num), Int.floor_zero]

/-- Formatting the 0.5 alpha value. -/
theorem format3_half : format3 ((1:ℚ)/2 * 1) = "0.500" := by
  have h1 : (1:ℚ)/2 * 1 = 1/2 := by norm_num
  rw [h1]
  simp only [format3]
  have habs : |(1:ℚ)/2| * 1000 = 500 := by
    rw [abs_of_nonneg (by norm_num : (0:ℚ) ≤ 1/2)]
    norm_num
  rw [habs]
  have h500 : pyRound ((500:ℚ)) = 500 := by
    have hf : Int.fract (500:ℚ) = 0 := by
      rw [Int.fract]
      norm_num
    rw [pyRound_of_fract_lt (by rw [hf]; norm_num)]
    norm_num
  rw [h500, if_neg (by norm_num : ¬ (1:ℚ)/2 < 0)]
  rfl

/-- C5 counterexample: the channel value 257/510 lies in 0..1 and scales to
exactly 128.5; the code (Python 3 `round`) yields the even 128, while the
claim's round-half-away-from-zero rule demands 129. -/
theorem C5_counterexample :
    (0:ℚ) ≤ 257/510 ∧ (257:ℚ)/510 ≤ 1
    ∧ figma_color_to_css (some [("r", 257/510)]) 1 = some "rgb(128, 0, 0)"
    ∧ pyRound ((257:ℚ)/510 * 255) = 128
    ∧ roundHalfAway ((257:ℚ)/510 * 255) = 129 := by
  have hfract : Int.fract ((257:ℚ)/510 * 255) = 1/2 := by
    rw [Int.fract]
    norm_num
  have hfloor : ⌊(257:ℚ)/510 * 255⌋ = 128 := by norm_num
  have hr : pyRound ((257:ℚ)/510 * 255) = 128 := by
    rw [pyRound_tie_even hfract (by rw [hfloor]; decide)]
    exact hfloor
  refine ⟨by norm_num, by norm_num, ?_, hr, ?_⟩
  · rw [figma_color_to_css_eq _ _ (by simp)]
    have ha : dictGet [("r", (257:ℚ)/510)] "a" 1 = 1 := rfl
    have hrd : dictGet [("r", (257:ℚ)/510)] "r" 0 = 257/510 := rfl
    have hgd : dictGet [("r", (257:ℚ)/510)] "g" 0 = 0 := rfl
    have hbd : dictGet [("r", (257:ℚ)/510)] "b" 0 = 0 := rfl
    rw [ha, hrd, hgd, hbd, if_pos (by norm_num : (999:ℚ)/1000 ≤ 1 * 1), hr, pyRound_zero_channel]
    rfl
  · rw [roundHalfAway, if_neg (by norm_num : ¬ (257:ℚ)/510 * 255 < 0)]
    norm_num

/-- C5 (amended: the channel scaling rounds to the nearest integer with
ties to even — Python 3 `round` — not away from zero): effective alpha is
the color's alpha times the multiplier; each channel is scaled by 255 and
rounded to a nearest integer, ties to even, staying within 0..255; alpha at
least 0.999 yields the 3-channel `rgb` form, anything below the 4-channel
`rgba` form with alpha to three decimal places; half-red at 50% alpha gives
`rgba(128, 0, 0, 0.500)`. -/
theorem C5_color_conversion :
    (∀ q : ℚ, |(pyRound q : ℚ) - q| ≤ 1/2)
    ∧ (∀ q : ℚ, |(pyRound q : ℚ) - q| = 1/2 → pyRound q % 2 = 0)
    ∧ (∀ ch : ℚ, 0 ≤ ch → ch ≤ 1 → 0 ≤ pyRound (ch * 255) ∧ pyRound (ch * 255) ≤ 255)
    ∧ (∀ (d : List (String × ℚ)) (opacity : ℚ), d ≠ [] →
        figma_color_to_css (some d) opacity =
          if 999/1000 ≤ dictGet d "a" 1 * opacity then
            some ("rgb(" ++ toString (pyRound (dictGet d "r" 0 * 255)) ++ ", "
              ++ toString (pyRound (dictGet d "g" 0 * 255)) ++ ", "
              ++ toString (pyRound (dictGet d "b" 0 * 255)) ++ ")")
          else
            some ("rgba(" ++ toString (pyRound (dictGet d "r" 0 * 255)) ++ ", "
              ++ toString (pyRound (dictGet d "g" 0 * 255)) ++ ", "
              ++ toString (pyRound (dictGet d "b" 0 * 255)) ++ ", "
              ++ format3 (dictGet d "a" 1 * opacity) ++ ")"))
    ∧ figma_color_to_css (some [("r", 1/2), ("a", 1/2)]) 1 = some "rgba(128, 0, 0, 0.500)" := by
  refine ⟨pyRound_nearest, pyRound_tie_to_even, ?_, figma_color_to_css_eq, ?_⟩
  · intro ch h0 h1
    refine pyRound_range (by positivity) ?_
    have h := mul_le_mul_of_nonneg_right h1 (by norm_num : (0:ℚ) ≤ 255)
    linarith
  · rw [figma_color_to_css_eq _ _ (by simp)]
    have ha : dictGet [("r", (1:ℚ)/2), ("a", 1/2)] "a" 1 = 1/2 := rfl
    have hrd : dictGet [("r", (1:ℚ)/2), ("a", 1/2)] "r" 0 = 1/2 := rfl
    have hgd : dictGet [("r", (1:ℚ)/2), ("a", 1/2)] "g" 0 = 0 := rfl
    have hbd : dictGet [("r", (1:ℚ)/2), ("a", 1/2)] "b" 0 = 0 := rfl
    rw [ha, hrd, hgd, hbd, if_neg (by norm_num : ¬ (999:ℚ)/1000 ≤ 1/2 * 1),
      pyRound_half_red, pyRound_zero_channel, format3_half]
    rfl

/-- C5 witness: the amended branch description applied to the concrete
half-red half-alpha dict. -/
theorem C5_color_witness :
    ([("r", (1:ℚ)/2), ("a", 1/2)] : List (String × ℚ)) ≠ []
    ∧ figma_color_to_css (some [("r", (1:ℚ)/2), ("a", 1/2)]) 1 =
        if 999/1000 ≤ dictGet [("r", (1:ℚ)/2), ("a", 1/2)] "a" 1 * 1 then
          some ("rgb(" ++ toString (pyRound (dictGet [("r", (1:ℚ)/2), ("a", 1/2)] "r" 0 * 255)) ++ ", "
            ++ toString (pyRound (dictGet [("r", (1:ℚ)/2), ("a", 1/2)] "g" 0 * 255)) ++ ", "
            ++ toString (pyRound (dictGet [("r", (1:ℚ)/2), ("a", 1/2)] "b" 0 * 255)) ++ ")")
        else
          some ("rgba(" ++ toString (pyRound (dictGet [("r", (1:ℚ)/2), ("a", 1/2)] "r" 0 * 255)) ++ ", "
            ++ toString (pyRound (dictGet [("r", (1:ℚ)/2), ("a", 1/2)] "g" 0 * 255)) ++ ", "
            ++ toString (pyRound (dictGet [("r", (1:ℚ)/2), ("a", 1/2)] "b" 0 * 255)) ++ ", "
            ++ format3 (dictGet [("r", (1:ℚ)/2), ("a", 1/2)] "a" 1 * 1) ++ ")") := by
  refine ⟨by simp, ?_⟩
  exact C5_color_conversion.2.2.2.1 [("r", (1:ℚ)/2), ("a", 1/2)] 1 (by simp)

/-- C10: a falsy color — `None` or the empty dict — yields no color rather
than opaque black; on a non-empty dict a missing `r`, `g` or `b` behaves as
0 and a missing `a` behaves as 1. -/
theorem C10_color_defaults :
    (∀ opacity : ℚ, figma_color_to_css none opacity = none)
    ∧ (∀ opacity : ℚ, figma_color_to_css (some []) opacity = none)
    ∧ (∀ (d : List (String × ℚ)) (opacity : ℚ), d ≠ [] →
        d.find? (fun p => p.1 == "r") = none →
        figma_color_to_css (some d) opacity
          = figma_color_to_css (some (("r", 0) :: d)) opacity)
    ∧ (∀ (d : List (String × ℚ)) (opacity : ℚ), d ≠ [] →
        d.find? (fun p => p.1 == "g") = none →
        figma_color_to_css (some d) opacity
          = figma_color_to_css (some (("g", 0) :: d)) opacity)
    ∧ (∀ (d : List (String × ℚ)) (opacity : ℚ), d ≠ [] →
        d.find? (fun p => p.1 == "b") = none →
        figma_color_to_css (some d) opacity
          = figma_color_to_css (some (("b", 0) :: d)) opacity)
    ∧ (∀ (d : List (String × ℚ)) (opacity : ℚ), d ≠ [] →
        d.find? (fun p => p.1 == "a") = none →
        figma_color_to_css (some d) opacity
          = figma_color_to_css (some (("a", 1) :: d)) opacity) := by
  refine ⟨fun _ => rfl, fun _ => rfl, ?_, ?_, ?_, ?_⟩
  · intro d op hd hr
    rw [figma_color_to_css_eq d op hd, figma_color_to_css_eq (("r", 0) :: d) op (by simp)]
    rw [dictGet_cons_self, dictGet_cons_ne _ _ _ _ _ (by decide),
      dictGet_cons_ne _ _ _ _ _ (by decide), dictGet_cons_ne _ _ _ _ _ (by decide),
      dictGet_absent d "r" 0 hr]
  · intro d op hd hg
    rw [figma_color_to_css_eq d op hd, figma_color_to_css_eq (("g", 0) :: d) op (by simp)]
    rw [dictGet_cons_self, dictGet_cons_ne _ _ _ _ _ (by decide),
      dictGet_cons_ne _ _ _ _ _ (by decide), dictGet_cons_ne _ _ _ _ _ (by decide),
      dictGet_absent d "g" 0 hg]
  · intro d op hd hb
    rw [figma_color_to_css_eq d op hd, figma_color_to_css_eq (("b", 0) :: d) op (by simp)]
    rw [dictGet_cons_self, dictGet_cons_ne _ _ _ _ _ (by decide),
      dictGet_cons_ne _ _ _ _ _ (by decide), dictGet_cons_ne _ _ _ _ _ (by decide),
      dictGet_absent d "b" 0 hb]
  · intro d op hd ha
    rw [figma_color_to_css_eq d op hd, figma_color_to_css_eq (("a", 1) :: d) op (by simp)]
    rw [dictGet_cons_self, dictGet_cons_ne _ _ _ _ _ (by decide),
      dictGet_cons_ne _ _ _ _ _ (by decide), dictGet_cons_ne _ _ _ _ _ (by decide),
      dictGet_absent d "a" 1 ha]

/-- C10 witness: the missing-red default applied to the dict holding only a
green channel. -/
theorem C10_color_witness :
    ([("g", (1:ℚ))] : List (String × ℚ)) ≠ []
    ∧ ([("g", (1:ℚ))] : List (String × ℚ)).find? (fun p => p.1 == "r") = none
    ∧ figma_color_to_css (some [("g", (1:ℚ))]) 1
        = figma_color_to_css (some [("r", 0), ("g", 1)]) 1 := by
  refine ⟨by simp, rfl, ?_⟩
  exact C10_color_defaults.2.2.1 [("g", (1:ℚ))] 1 (by simp) rfl

/-- None of the four route alternatives can match at a position whose first
character is not `'f'`. -/
theorem matchRoute_none_not_f (c : Char) (cs : List Char) (h : c ≠ 'f') :
    matchRoute routePrefixes (c :: cs) = none := by
  have h' : ('f' == c) = false := beq_eq_false_iff_ne.mpr (Ne.symm h)
  simp [routePrefixes, matchRoute, List.isPrefixOf, h']

/-- The leftmost-match search skips any stretch of text with no `'f'`. -/
theorem searchKey_append_no_f (pre : List Char) (h : ∀ c ∈ pre, c ≠ 'f') (cs : List Char) :
    searchKey (pre ++ cs) = searchKey cs := by
  induction pre with
  | nil => rfl
  | cons c pre' ih =>
    rw [List.cons_append, searchKey, matchRoute_none_not_f c _ (h c (by simp))]
    exact ih (fun x hx => h x (by simp [hx]))

/-- A maximal alphanumeric run stops exactly at the `'/'` after the key. -/
theorem takeWhile_alnum (k tail : List Char) (ha : ∀ c ∈ k, isAlnumChar c = true) :
    (k ++ '/' :: tail).takeWhile isAlnumChar = k := by
  induction k with
  | nil =>
    rw [List.nil_append, List.takeWhile_cons, show isAlnumChar '/' = false from rfl]
    rfl
  | cons c ks ih =>
    rw [List.cons_append, List.takeWhile_cons, ha c (by simp)]
    simp [ih (fun x hx => ha x (by simp [hx]))]

/-- A list is a prefix of itself extended. -/
theorem isPrefixOf_self_append (l t : List Char) : l.isPrefixOf (l ++ t) = true := by
  induction l with
  | nil => simp [List.isPrefixOf]
  | cons c cs ih => simp [List.isPrefixOf, ih]

/-- A prefix test with a genuine character mismatch inside the unextended
text fails no matter how the text continues. -/
theorem isPrefixOf_append_false (p q X : List Char)
    (h : ∃ i : Fin p.length, ∃ hj : i.1 < q.length, p.get i ≠ q.get ⟨i.1, hj⟩) :
    p.isPrefixOf (q ++ X) = false := by
  induction p generalizing q with
  | nil =>
    obtain ⟨i, _, _⟩ := h
    exact absurd i.2 (by simp)
  | cons a as ih =>
    cases q with
    | nil =>
      obtain ⟨i, hj, _⟩ := h
      exact absurd hj (by simp)
    | cons b bs =>
      rw [List.cons_append]
      obtain ⟨i, hj, hne⟩ := h
      match i, hj, hne with
      | ⟨0, _⟩, _, hne =>
        have hab : (a == b) = false := beq_eq_false_iff_ne.mpr hne
        simp [List.isPrefixOf, hab]
      | ⟨n + 1, hn⟩, hj, hne =>
        have hrec := ih bs ⟨⟨n, by simpa using hn⟩, by simpa using hj, hne⟩
        simp [List.isPrefixOf, hrec]

/-- Matching at the real route position, `file` alternative. -/
theorem matchRoute_at_file (k tail : List Char) (hk : k ≠ []) (ha : ∀ c ∈ k, isAlnumChar c = true) :
    matchRoute routePrefixes ("figma.com/file/".data ++ (k ++ '/' :: tail)) = some k := by
  simp only [routePrefixes, matchRoute]
  rw [isPrefixOf_self_append, List.drop_left, takeWhile_alnum k tail ha]
  simp [hk]

/-- Matching at the real route position, `design` alternative. -/
theorem matchRoute_at_design (k tail : List Char) (hk : k ≠ []) (ha : ∀ c ∈ k, isAlnumChar c = true) :
    matchRoute routePrefixes ("figma.com/design/".data ++ (k ++ '/' :: tail)) = some k := by
  simp only [routePrefixes, matchRoute]
  rw [isPrefixOf_append_false ['f','i','g','m','a','.','c','o','m','/','f','i','l','e','/'] "figma.com/design/".data (k ++ '/' :: tail) (by decide)]
  rw [isPrefixOf_self_append, List.drop_left, takeWhile_alnum k tail ha]
  simp [hk]

/-- Matching at the real route position, `board` alternative. -/
theorem matchRoute_at_board (k tail : List Char) (hk : k ≠ []) (ha : ∀ c ∈ k, isAlnumChar c = true) :
    matchRoute routePrefixes ("figma.com/board/".data ++ (k ++ '/' :: tail)) = some k := by
  simp only [routePrefixes, matchRoute]
  rw [isPrefixOf_append_false ['f','i','g','m','a','.','c','o','m','/','f','i','l','e','/'] "figma.com/board/".data (k ++ '/' :: tail) (by decide)]
  rw [isPrefixOf_append_false ['f','i','g','m','a','.','c','o','m','/','d','e','s','i','g','n','/'] "figma.com/board/".data (k ++ '/' :: tail) (by decide)]
  rw [isPrefixOf_self_append, List.drop_left, takeWhile_alnum k tail ha]
  simp [hk]

/-- Matching at the real route position, `proto` alternative. -/
theorem matchRoute_at_proto (k tail : List Char) (hk : k ≠ []) (ha : ∀ c ∈ k, isAlnumChar c = true) :
    matchRoute routePrefixes ("figma.com/proto/".data ++ (k ++ '/' :: tail)) = some k := by
  simp only [routePrefixes, matchRoute]
  rw [isPrefixOf_append_false ['f','i','g','m','a','.','c','o','m','/','f','i','l','e','/'] "figma.com/proto/".data (k ++ '/' :: tail) (by decide)]
  rw [isPrefixOf_append_false ['f','i','g','m','a','.','c','o','m','/','d','e','s','i','g','n','/'] "figma.com/proto/".data (k ++ '/' :: tail) (by decide)]
  rw [isPrefixOf_append_false ['f','i','g','m','a','.','c','o','m','/','b','o','a','r','d','/'] "figma.com/proto/".data (k ++ '/' :: tail) (by decide)]
  rw [isPrefixOf_self_append, List.drop_left, takeWhile_alnum k tail ha]
  simp [hk]

/-- The search finds the `file` route key. -/
theorem searchKey_at_file (k tail : List Char) (hk : k ≠ []) (ha : ∀ c ∈ k, isAlnumChar c = true) :
    searchKey ("figma.com/file/".data ++ (k ++ '/' :: tail)) = some k := by
  rw [show "figma.com/file/".data ++ (k ++ '/' :: tail)
      = 'f' :: ("igma.com/file/".data ++ (k ++ '/' :: tail)) from rfl]
  rw [searchKey]
  rw [show ('f' :: ("igma.com/file/".data ++ (k ++ '/' :: tail)))
      = "figma.com/file/".data ++ (k ++ '/' :: tail) from rfl]
  rw [matchRoute_at_file k tail hk ha]

/-- The search finds the `design` route key. -/
theorem searchKey_at_design (k tail : List Char) (hk : k ≠ []) (ha : ∀ c ∈ k, isAlnumChar c = true) :
    searchKey ("figma.com/design/".data ++ (k ++ '/' :: tail)) = some k := by
  rw [show "figma.com/design/".data ++ (k ++ '/' :: tail)
      = 'f' :: ("igma.com/design/".data ++ (k ++ '/' :: tail)) from rfl]
  rw [searchKey]
  rw [show ('f' :: ("igma.com/design/".data ++ (k ++ '/' :: tail)))
      = "figma.com/design/".data ++ (k ++ '/' :: tail) from rfl]
  rw [matchRoute_at_design k tail hk ha]

/-- The search finds the `board` route key. -/
theorem searchKey_at_board (k tail : List Char) (hk : k ≠ []) (ha : ∀ c ∈ k, isAlnumChar c = true) :
    searchKey ("figma.com/board/".data ++ (k ++ '/' :: tail)) = some k := by
  rw [show "figma.com/board/".data ++ (k ++ '/' :: tail)
      = 'f' :: ("igma.com/board/".data ++ (k ++ '/' :: tail)) from rfl]
  rw [searchKey]
  rw [show ('f' :: ("igma.com/board/".data ++ (k ++ '/' :: tail)))
      = "figma.com/board/".data ++ (k ++ '/' :: tail) from rfl]
  rw [matchRoute_at_board k tail hk ha]

/-- The search finds the `proto` route key. -/
theorem searchKey_at_proto (k tail : List Char) (hk : k ≠ []) (ha : ∀ c ∈ k, isAlnumChar c = true) :
    searchKey ("figma.com/proto/".data ++ (k ++ '/' :: tail)) = some k := by
  rw [show "figma.com/proto/".data ++ (k ++ '/' :: tail)
      = 'f' :: ("igma.com/proto/".data ++ (k ++ '/' :: tail)) from rfl]
  rw [searchKey]
  rw [show ('f' :: ("igma.com/proto/".data ++ (k ++ '/' :: tail)))
      = "figma.com/proto/".data ++ (k ++ '/' :: tail) from rfl]
  rw [matchRoute_at_proto k tail hk ha]

/-- Stripping a string that starts with a non-whitespace character and
whose tail, wherever it ends, is preceded by a `'/'`: the lead survives and
only the text after that `'/'` can shrink. -/
theorem stripChars_shape (c : Char) (hc : c.isWhitespace = false) (mid rest : List Char) :
    ∃ rest2, stripChars ((c :: mid) ++ '/' :: rest) = (c :: mid) ++ '/' :: rest2 := by
  refine ⟨((rest.reverse).dropWhile Char.isWhitespace).reverse, ?_⟩
  rw [stripChars]
  have h1 : List.dropWhile Char.isWhitespace ((c :: mid) ++ '/' :: rest)
      = (c :: mid) ++ '/' :: rest := by
    rw [List.cons_append, List.dropWhile_cons, hc]
    rfl
  rw [h1]
  rw [show (c :: mid) ++ '/' :: rest = ((c :: mid) ++ ['/']) ++ rest from by simp]
  rw [List.reverse_append, List.dropWhile_append]
  by_cases he : (rest.reverse.dropWhile Char.isWhitespace).isEmpty
  · rw [if_pos he]
    have he' : rest.reverse.dropWhile Char.isWhitespace = [] := by
      simpa [List.isEmpty_iff] using he
    rw [he']
    have hrev : ((c :: mid) ++ ['/']).reverse = '/' :: (mid.reverse ++ [c]) := by simp
    rw [hrev, List.dropWhile_cons, show Char.isWhitespace '/' = false from rfl]
    simp
  · rw [if_neg he]
    simp

/-- C3 counterexample: a URL with the supported `file` route and a valid
key on the host example.com — whose text does not contain the substring
`figma.com/` — is rejected with `InvalidLocator`, not parsed to the key;
the claim's `for any host` is false. -/
theorem C3_counterexample :
    extract_file_key "https://example.com/file/ABC123/x"
      = .error ("Invalid Figma URL. Expected format like " ++
          "https://www.figma.com/design/<FILE_KEY>/... or /file/<FILE_KEY>/...") := rfl

/-- C3 (amended: not every host — the pattern matches on the substring
`figma.com/` before the route, so the guarantee is stated for the
canonical `www.figma.com` URLs): for every supported route prefix and
every non-empty alphanumeric key, parsing
`https://www.figma.com/<route>/<key>/...` yields the key. -/
theorem C3_url_parse (route : String) (k rest : List Char)
    (hr : route = "file" ∨ route = "design" ∨ route = "board" ∨ route = "proto")
    (hk : k ≠ []) (ha : ∀ c ∈ k, isAlnumChar c = true) :
    extract_file_key
        (String.mk (("https://www.figma.com/" ++ route ++ "/").data ++ (k ++ '/' :: rest)))
      = .ok (String.mk k) := by
  have main : ∀ (tailStr : String) (skLemma : ∀ tail, searchKey (tailStr.data ++ (k ++ '/' :: tail)) = some k)
      (hshape : ("https://www.".data ++ tailStr.data : List Char)
        = 'h' :: ("ttps://www.".data ++ tailStr.data)),
      extract_file_key (String.mk (("https://www.".data ++ tailStr.data) ++ (k ++ '/' :: rest)))
        = .ok (String.mk k) := by
    intro tailStr skLemma hshape
    obtain ⟨rest2, hs⟩ := stripChars_shape 'h' (by decide) ("ttps://www.".data ++ tailStr.data ++ k) rest
    have hmassage : ("https://www.".data ++ tailStr.data) ++ (k ++ '/' :: rest)
        = ('h' :: ("ttps://www.".data ++ tailStr.data ++ k)) ++ '/' :: rest := by
      rw [hshape]
      simp
    have hstrip : stripChars (("https://www.".data ++ tailStr.data) ++ (k ++ '/' :: rest))
        = ('h' :: ("ttps://www.".data ++ tailStr.data ++ k)) ++ '/' :: rest2 := by
      rw [hmassage, hs]
    have hstrip' : stripChars (("https://www.".data ++ tailStr.data) ++ (k ++ '/' :: rest))
        = ("https://www.".data ++ tailStr.data) ++ (k ++ '/' :: rest2) := by
      rw [hstrip, hshape]
      simp
    rw [extract_file_key]
    have hps : pyStrip (String.mk (("https://www.".data ++ tailStr.data) ++ (k ++ '/' :: rest)))
        = String.mk (("https://www.".data ++ tailStr.data) ++ (k ++ '/' :: rest2)) := by
      rw [pyStrip]
      exact congrArg String.mk hstrip'
    rw [hps]
    have hsw : pyStartswith
        (String.mk (("https://www.".data ++ tailStr.data) ++ (k ++ '/' :: rest2))) "http" = true := by
      rw [pyStartswith]
      rw [show ("https://www.".data ++ tailStr.data) ++ (k ++ '/' :: rest2)
          = 'h' :: 't' :: 't' :: 'p' :: ("s://www.".data ++ tailStr.data ++ (k ++ '/' :: rest2))
          from by simp]
      rw [show "http".data = ['h', 't', 't', 'p'] from rfl]
      simp [List.isPrefixOf]
    rw [hsw]
    have hsk : searchKey (("https://www.".data ++ tailStr.data) ++ (k ++ '/' :: rest2)) = some k := by
      rw [List.append_assoc]
      rw [searchKey_append_no_f "https://www.".data (by decide)]
      exact skLemma rest2
    rw [if_neg (by simp)]
    rw [show ({ data := "https://www.".data ++ tailStr.data ++ (k ++ '/' :: rest2) } : String).data
        = "https://www.".data ++ tailStr.data ++ (k ++ '/' :: rest2) from rfl]
    rw [hsk]
  rcases hr with h | h | h | h <;> subst h
  · have hres := main "figma.com/file/" (fun tail => searchKey_at_file k tail hk ha) rfl
    exact hres
  · have hres := main "figma.com/design/" (fun tail => searchKey_at_design k tail hk ha) rfl
    exact hres
  · have hres := main "figma.com/board/" (fun tail => searchKey_at_board k tail hk ha) rfl
    exact hres
  · have hres := main "figma.com/proto/" (fun tail => searchKey_at_proto k tail hk ha) rfl
    exact hres

/-- C3 witness: the amended claim at the `file` route with key `ABC123`. -/
theorem C3_url_parse_witness :
    ("file" = "file" ∨ ("file" : String) = "design" ∨ ("file" : String) = "board"
      ∨ ("file" : String) = "proto")
    ∧ ("ABC123".data ≠ [])
    ∧ (∀ c ∈ "ABC123".data, isAlnumChar c = true)
    ∧ extract_file_key "https://www.figma.com/file/ABC123/My-File" = .ok "ABC123" := by
  refine ⟨Or.inl rfl, by decide, by decide, ?_⟩
  exact C3_url_parse "file" "ABC123".data "My-File".data (Or.inl rfl) (by decide) (by decide)

end FigmaMCP
